import Mathlib

/-!
Shallow embedding of `examples/cmd.rs` from the surge-ping repository.

Modelling conventions:
- Rust `Duration` values are modelled as natural numbers of nanoseconds
  (`Duration` has nanosecond resolution; `Duration::checked_div` truncates
  to whole nanoseconds, which `Nat` division reproduces exactly).
- `f64` arithmetic on these values is idealized as exact rational
  arithmetic (`ℚ`); the IEEE special results of dividing by zero are kept
  explicitly via the type `FV` (`nan` for 0/0, `inf` for x/0 with x ≠ 0),
  because the loss-percentage expression in `Answer::output` divides by
  `transmitted` without any guard.
- `Answer::mdev` computes a radicand (local variable `tmdev` in the
  source) and returns `Some(tmdev.sqrt())`.  The embedding keeps the
  radicand `tmdev` as a rational; the square root is handled in theorem
  statements by exhibiting rational brackets, so every definition stays
  computable.  `mdev()` in the source is `Some` exactly when `tmdev` here
  is `some`, since `.sqrt()` is total on `f64`.
-/

/-- The accumulator struct `Answer` of `examples/cmd.rs`:
`host: String`, `transmitted: usize`, `received: usize`,
`durations: Vec<Duration>` (durations in nanoseconds). -/
structure Answer where
  host : String
  transmitted : Nat
  received : Nat
  durations : List Nat
deriving Repr, DecidableEq

/-- `Answer::new(host)`: all counters zero, empty duration log. -/
def Answer.new (host : String) : Answer :=
  { host := host, transmitted := 0, received := 0, durations := [] }

/-- `Answer::update(&mut self, dur: Option<Duration>)`:
on `Some(dur)` increment `transmitted` and `received` and push `dur`;
on `None` increment only `transmitted`. -/
def Answer.update (a : Answer) (dur : Option Nat) : Answer :=
  match dur with
  | some d =>
      { a with
        transmitted := a.transmitted + 1
        received := a.received + 1
        durations := a.durations ++ [d] }
  | none => { a with transmitted := a.transmitted + 1 }

/-- `dur.as_secs_f64() * 1000f64`: nanoseconds to milliseconds, as an
exact rational. -/
def msOfNanos (n : Nat) : ℚ := (n : ℚ) / 1000000

/-- `self.durations.iter().min()` on the nanosecond representation. -/
def listMin : List Nat → Option Nat
  | [] => none
  | x :: xs =>
      match listMin xs with
      | none => some x
      | some m => some (Nat.min x m)

/-- `self.durations.iter().max()` on the nanosecond representation. -/
def listMax : List Nat → Option Nat
  | [] => none
  | x :: xs =>
      match listMax xs with
      | none => some x
      | some m => some (Nat.max x m)

/-- `Answer::min`: minimum duration in milliseconds, `None` on an empty log. -/
def Answer.min (a : Answer) : Option ℚ :=
  (listMin a.durations).map msOfNanos

/-- `Answer::max`: maximum duration in milliseconds, `None` on an empty log. -/
def Answer.max (a : Answer) : Option ℚ :=
  (listMax a.durations).map msOfNanos

/-- `Answer::avg`: `sum.checked_div(len)` — `None` when the log is empty,
otherwise the truncating nanosecond division `sum / len`, converted to
milliseconds. -/
def Answer.avg (a : Answer) : Option ℚ :=
  if a.durations.length = 0 then none
  else some (msOfNanos (a.durations.sum / a.durations.length))

/-- The fold `tmp_sum` in `Answer::mdev`:
`Σ x.as_secs_f64()² · 10⁶`, which is the sum of the squared latencies in
milliseconds. -/
def Answer.tmpSum (a : Answer) : ℚ :=
  a.durations.foldl (fun acc x => acc + msOfNanos x * msOfNanos x) 0

/-- The radicand `tmdev = tmp_sum / len − avg·avg` of `Answer::mdev`;
`Answer::mdev` returns `Some(tmdev.sqrt())` exactly when `avg` is `Some`,
so `mdev().is_some()` in the source coincides with `(tmdev).isSome` here. -/
def Answer.tmdev (a : Answer) : Option ℚ :=
  match a.avg with
  | some av => some (a.tmpSum / (a.durations.length : ℚ) - av * av)
  | none => none

/-- Idealized `f64` value: exact rational, or one of the IEEE special
values produced by dividing by zero. -/
inductive FV where
  | nan : FV
  | inf : FV
  | val : ℚ → FV
deriving Repr, DecidableEq

/-- `f64` division: `0/0` is NaN, `x/0` with `x ≠ 0` is infinity
(the numerator here is always nonnegative), otherwise exact. -/
def fdiv (x y : ℚ) : FV :=
  if y = 0 then (if x = 0 then FV.nan else FV.inf) else FV.val (x / y)

/-- Multiplication of an `f64` value by a positive rational constant
(the literal `100_f64` in the source): special values are absorbed. -/
def fmul (f : FV) (c : ℚ) : FV :=
  match f with
  | FV.nan => FV.nan
  | FV.inf => FV.inf
  | FV.val q => FV.val (q * c)

/-- The loss-percentage expression of `Answer::output`:
`(self.transmitted - self.received) as f64 / self.transmitted as f64 * 100_f64`.
The subtraction is on `usize` (here truncating `Nat` subtraction), the
division is unguarded `f64` division. -/
def Answer.lossPercent (a : Answer) : FV :=
  fmul (fdiv ((a.transmitted - a.received : Nat) : ℚ) (a.transmitted : ℚ)) 100

/-- The data printed by `Answer::output`: the header line with the host,
the `transmitted / received / loss` line, and (only when `received > 1`)
the `min/avg/max/stddev` line whose four fields the source obtains by
`unwrap()`.  The four fields are kept as `Option`s so that the panic
freedom of the unwraps is the statement that they are `isSome`. -/
structure SummaryOutput where
  header : String
  transmitted : Nat
  received : Nat
  loss : FV
  rtLine : Option (Option ℚ × Option ℚ × Option ℚ × Option ℚ)
deriving Repr, DecidableEq

/-- `Answer::output`: the summary block.  The latency detail line is
emitted exactly when `self.received > 1`. -/
def Answer.output (a : Answer) : SummaryOutput :=
  { header := a.host
    transmitted := a.transmitted
    received := a.received
    loss := a.lossPercent
    rtLine :=
      if a.received > 1 then some (a.min, a.avg, a.max, a.tmdev) else none }

/-- A run of the recorder: the fold of `Answer::update` over a list of
attempt outcomes, starting from `Answer::new(host)`.  Every state the
loop in `main` can reach is of this form. -/
def runUpdates (host : String) (us : List (Option Nat)) : Answer :=
  us.foldl Answer.update (Answer.new host)

/-- The probe loop of `main`:
`for idx in 0..opt.count { interval.tick().await; match pinger.ping(PingSequence(idx), …) { … } }`.
`oracle idx` is the outcome the transport resolves for sequence number
`idx` (`some d` = reply after `d` nanoseconds, `none` = timeout or
transport error).  The second component records the sequence numbers
handed to `pinger.ping`, in order.  In the source `count : u16` and the
loop iterates over the `u16` range `0..count`; the structure is identical
for any natural bound. -/
def mainLoop (host : String) (count : Nat) (oracle : Nat → Option Nat) :
    Answer × List Nat :=
  (List.range count).foldl
    (fun st idx => (Answer.update st.1 (oracle idx), st.2 ++ [idx]))
    (Answer.new host, [])

/-- The structopt default for the `count` option (`default_value = "5"`). -/
def defaultCount : Nat := 5

/-! ### Helper lemmas about `Answer.update` and runs -/

theorem update_transmitted (a : Answer) (d : Option Nat) :
    (a.update d).transmitted = a.transmitted + 1 := by
  cases d <;> rfl

theorem foldl_update_inv (us : List (Option Nat)) (a : Answer)
    (h1 : a.received ≤ a.transmitted)
    (h2 : a.durations.length = a.received) :
    (us.foldl Answer.update a).received ≤ (us.foldl Answer.update a).transmitted ∧
    (us.foldl Answer.update a).durations.length = (us.foldl Answer.update a).received := by
  induction us generalizing a with
  | nil => exact ⟨h1, h2⟩
  | cons u us ih =>
      apply ih
      · cases u <;> simp [Answer.update] <;> omega
      · cases u <;> simp [Answer.update] <;> omega

theorem foldl_update_transmitted (us : List (Option Nat)) (a : Answer) :
    (us.foldl Answer.update a).transmitted = a.transmitted + us.length := by
  induction us generalizing a with
  | nil => rfl
  | cons u us ih =>
      rw [List.foldl_cons, ih, update_transmitted]
      simp [List.length_cons]
      omega

theorem foldl_replicate_none_received (n : Nat) (a : Answer) :
    ((List.replicate n (none : Option Nat)).foldl Answer.update a).received = a.received := by
  induction n generalizing a with
  | zero => rfl
  | succ n ih =>
      rw [List.replicate_succ, List.foldl_cons, ih]
      rfl

theorem foldl_replicate_none_durations (n : Nat) (a : Answer) :
    ((List.replicate n (none : Option Nat)).foldl Answer.update a).durations = a.durations := by
  induction n generalizing a with
  | zero => rfl
  | succ n ih =>
      rw [List.replicate_succ, List.foldl_cons, ih]
      rfl

theorem listMin_isSome_of_ne_nil (l : List Nat) (h : l ≠ []) : (listMin l).isSome := by
  cases l with
  | nil => exact absurd rfl h
  | cons x xs =>
      show (listMin (x :: xs)).isSome
      rw [listMin]
      cases listMin xs <;> rfl

theorem listMax_isSome_of_ne_nil (l : List Nat) (h : l ≠ []) : (listMax l).isSome := by
  cases l with
  | nil => exact absurd rfl h
  | cons x xs =>
      show (listMax (x :: xs)).isSome
      rw [listMax]
      cases listMax xs <;> rfl

theorem foldl_sq_sum (l : List Nat) (acc : ℚ) :
    l.foldl (fun acc x => acc + msOfNanos x * msOfNanos x) acc =
      acc + (l.map (fun d => msOfNanos d * msOfNanos d)).sum := by
  induction l generalizing acc with
  | nil => simp
  | cons x xs ih =>
      rw [List.foldl_cons, ih, List.map_cons, List.sum_cons]
      ring

theorem tmpSum_eq (a : Answer) :
    a.tmpSum = (a.durations.map (fun d => msOfNanos d * msOfNanos d)).sum := by
  rw [Answer.tmpSum, foldl_sq_sum, zero_add]

theorem mainLoop_snd_aux (l : List Nat) (o : Nat → Option Nat) (a : Answer)
    (acc : List Nat) :
    (l.foldl (fun st idx => (Answer.update st.1 (o idx), st.2 ++ [idx])) (a, acc)).2 =
      acc ++ l := by
  induction l generalizing a acc with
  | nil => simp
  | cons x xs ih => simp [List.foldl_cons, ih]

theorem mainLoop_fst_aux (l : List Nat) (o : Nat → Option Nat) (a : Answer)
    (acc : List Nat) :
    (l.foldl (fun st idx => (Answer.update st.1 (o idx), st.2 ++ [idx])) (a, acc)).1 =
      (l.map o).foldl Answer.update a := by
  induction l generalizing a acc with
  | nil => rfl
  | cons x xs ih => simp [List.foldl_cons, ih]

theorem mainLoop_snd (host : String) (count : Nat) (o : Nat → Option Nat) :
    (mainLoop host count o).2 = List.range count := by
  rw [mainLoop, mainLoop_snd_aux, List.nil_append]

theorem mainLoop_fst (host : String) (count : Nat) (o : Nat → Option Nat) :
    (mainLoop host count o).1 = runUpdates host ((List.range count).map o) := by
  rw [mainLoop, mainLoop_fst_aux, runUpdates]

/-! ### Claim theorems -/

/-- Claim C1: every run state reachable by any sequence of `Answer::update`
calls from `Answer::new` satisfies `received ≤ transmitted` and
`durations.length = received`. -/
theorem run_invariant (host : String) (us : List (Option Nat)) :
    (runUpdates host us).received ≤ (runUpdates host us).transmitted ∧
    (runUpdates host us).durations.length = (runUpdates host us).received :=
  foldl_update_inv us (Answer.new host) (Nat.le_refl 0) rfl

/-- Claim C2: one `Answer::update` call increments `transmitted` by exactly
one; on a success carrying duration `d` it also increments `received` by
exactly one and appends `d` at the end of the duration log; on a failure
`received` and the duration log are exactly as before. -/
theorem update_record_semantics (a : Answer) (d : Nat) :
    (a.update (some d)).transmitted = a.transmitted + 1 ∧
    (a.update (some d)).received = a.received + 1 ∧
    (a.update (some d)).durations = a.durations ++ [d] ∧
    (a.update none).transmitted = a.transmitted + 1 ∧
    (a.update none).received = a.received ∧
    (a.update none).durations = a.durations :=
  ⟨rfl, rfl, rfl, rfl, rfl, rfl⟩

/-- Claim C10: recording a failure (`update` with `None`) modifies only the
`transmitted` counter — `received`, the duration log and the host label are
unchanged — and the host label is also unchanged by every success update. -/
theorem update_frame (a : Answer) (d : Nat) :
    (a.update none).received = a.received ∧
    (a.update none).durations = a.durations ∧
    (a.update none).host = a.host ∧
    (a.update none).transmitted = a.transmitted + 1 ∧
    (a.update (some d)).host = a.host :=
  ⟨rfl, rfl, rfl, rfl, rfl⟩

/-- Claim C5: the summary emits the min/avg/max/mdev latency line exactly
when `received > 1`; when `received = 1` the latency detail line is
suppressed while the one success still appears in the
transmitted/received/loss line. -/
theorem output_rtLine_gate (a : Answer) :
    ((a.output).rtLine.isSome ↔ 1 < a.received) ∧
    (a.received = 1 →
      (a.output).rtLine = none ∧
      (a.output).transmitted = a.transmitted ∧
      (a.output).received = a.received ∧
      (a.output).loss = a.lossPercent) := by
  constructor
  · by_cases h : 1 < a.received <;> simp [Answer.output, h]
  · intro h
    have hn : ¬ 1 < a.received := by omega
    exact ⟨by simp [Answer.output, hn], rfl, rfl, rfl⟩

/-- Witness for C5 at the concrete state `⟨"h", 2, 1, [5]⟩`
(`received = 1`). -/
theorem output_rtLine_gate_witness :
    (Answer.output ⟨"h", 2, 1, [5]⟩).rtLine = none ∧
    (Answer.output ⟨"h", 2, 1, [5]⟩).transmitted = 2 ∧
    (Answer.output ⟨"h", 2, 1, [5]⟩).received = 1 ∧
    (Answer.output ⟨"h", 2, 1, [5]⟩).loss = (Answer.mk "h" 2 1 [5]).lossPercent :=
  (output_rtLine_gate ⟨"h", 2, 1, [5]⟩).2 rfl

/-- Counterexample for C6: at the concrete state `Answer::new("localhost")`
(`transmitted = 0`), the loss-percentage expression of `Answer::output` is
the result of actually performing the `f64` division `0.0 / 0.0`, namely
NaN — the engine does not signal a "no data" result instead of dividing by
zero. -/
theorem loss_zero_transmitted_counterexample :
    (Answer.new "localhost").transmitted = 0 ∧
    (Answer.new "localhost").lossPercent = FV.nan :=
  ⟨rfl, rfl⟩

/-- Amended C6: whenever `transmitted = 0`, `Answer::output` performs the
floating-point division `0.0 / 0.0`, so the loss percentage it prints is
NaN; there is no "no data" signalling. -/
theorem loss_zero_transmitted_nan (a : Answer) (h : a.transmitted = 0) :
    a.lossPercent = FV.nan := by
  simp [Answer.lossPercent, h, fdiv, fmul]

/-- Witness for the amended C6 at the concrete state
`⟨"example.com", 0, 0, []⟩`. -/
theorem loss_zero_transmitted_nan_witness :
    (Answer.mk "example.com" 0 0 []).lossPercent = FV.nan :=
  loss_zero_transmitted_nan (Answer.mk "example.com" 0 0 []) rfl

/-! ### More helpers shared by the remaining claims -/

theorem run_inv_aux (host : String) (us : List (Option Nat)) :
    (runUpdates host us).received ≤ (runUpdates host us).transmitted ∧
    (runUpdates host us).durations.length = (runUpdates host us).received :=
  foldl_update_inv us (Answer.new host) (Nat.le_refl 0) rfl

theorem lossPercent_eq_of_pos (a : Answer) (hr : a.received ≤ a.transmitted)
    (ht : 0 < a.transmitted) :
    a.lossPercent =
      FV.val (((a.transmitted : ℚ) - (a.received : ℚ)) / (a.transmitted : ℚ) * 100) := by
  have hQ : (a.transmitted : ℚ) ≠ 0 := by
    exact_mod_cast Nat.pos_iff_ne_zero.mp ht
  rw [Answer.lossPercent, fdiv, if_neg hQ, fmul]
  rw [Nat.cast_sub hr]

theorem run_transmitted (host : String) (us : List (Option Nat)) :
    (runUpdates host us).transmitted = us.length := by
  rw [runUpdates, foldl_update_transmitted]
  simp [Answer.new]

/-- Claim C3 (part of): the radicand of `Answer::mdev` is exactly the
population second-moment expression `mean(ms²) − avg²`, with denominator
`n` (no `n − 1` correction); at the concrete log `{10ms, 20ms, 30ms}` it
equals `200/3 = 66.66…`, whose square root lies strictly between `8.164`
and `8.166`, i.e. `mdev ≈ 8.165`. -/
theorem mdev_population_formula :
    (∀ (host : String) (us : List (Option Nat)) (av : ℚ),
        1 ≤ (runUpdates host us).received →
        (runUpdates host us).avg = some av →
        (runUpdates host us).tmdev =
          some ((((runUpdates host us).durations.map
              (fun d => msOfNanos d * msOfNanos d)).sum) /
            ((runUpdates host us).durations.length : ℚ) - av * av)) ∧
    (runUpdates "h" [some 10000000, some 20000000, some 30000000]).tmdev =
      some (200 / 3) ∧
    ((8164 : ℚ) / 1000) ^ 2 < 200 / 3 ∧
    ((200 : ℚ) / 3) < ((8166 : ℚ) / 1000) ^ 2 := by
  refine ⟨?_, ?_, by norm_num, by norm_num⟩
  · intro host us av _h1 hav
    simp [Answer.tmdev, hav, tmpSum_eq]
  · norm_num [runUpdates, Answer.update, Answer.new, Answer.tmdev, Answer.avg,
      Answer.tmpSum, msOfNanos]

/-- Witness for C3 at the concrete run `{10ms, 20ms, 30ms}` (three success
updates), with the reported average `20 ms = msOfNanos 20000000`. -/
theorem mdev_population_formula_witness :
    (runUpdates "h" [some 10000000, some 20000000, some 30000000]).tmdev =
      some ((((runUpdates "h" [some 10000000, some 20000000, some 30000000]).durations.map
          (fun d => msOfNanos d * msOfNanos d)).sum) /
        (((runUpdates "h" [some 10000000, some 20000000, some 30000000]).durations.length : ℚ)) -
        msOfNanos 20000000 * msOfNanos 20000000) :=
  mdev_population_formula.1 "h" [some 10000000, some 20000000, some 30000000]
    (msOfNanos 20000000) (by decide) rfl

/-- Claim C4: for every run with `transmitted > 0` the loss percentage is
`(transmitted − received) / transmitted × 100`; for every run of `N > 0`
attempts that all fail, the loss percentage is `100` and the
min/avg/max/mdev line is omitted. -/
theorem loss_formula_and_all_fail :
    (∀ (host : String) (us : List (Option Nat)),
        0 < (runUpdates host us).transmitted →
        (runUpdates host us).lossPercent =
          FV.val ((((runUpdates host us).transmitted : ℚ) -
              ((runUpdates host us).received : ℚ)) /
            ((runUpdates host us).transmitted : ℚ) * 100)) ∧
    (∀ (host : String) (N : Nat), 0 < N →
        (runUpdates host (List.replicate N none)).lossPercent = FV.val 100 ∧
        ((runUpdates host (List.replicate N none)).output).rtLine = none) := by
  constructor
  · intro host us ht
    exact lossPercent_eq_of_pos _ (run_inv_aux host us).1 ht
  · intro host N hN
    have ht : (runUpdates host (List.replicate N none)).transmitted = N := by
      rw [run_transmitted, List.length_replicate]
    have hr : (runUpdates host (List.replicate N none)).received = 0 := by
      rw [runUpdates, foldl_replicate_none_received]
      rfl
    constructor
    · rw [lossPercent_eq_of_pos _ (run_inv_aux host _).1 (by omega), ht, hr]
      have hQ : (N : ℚ) ≠ 0 := by exact_mod_cast Nat.pos_iff_ne_zero.mp hN
      rw [Nat.cast_zero, sub_zero, div_self hQ, one_mul]
    · simp [Answer.output, hr]

/-- Witness for C4: the run `[some 5, none]` (`transmitted = 2`,
`received = 1`) for the formula, and the all-failing run of 3 attempts. -/
theorem loss_formula_and_all_fail_witness :
    (runUpdates "h" [some 5, none]).lossPercent =
      FV.val ((((runUpdates "h" [some 5, none]).transmitted : ℚ) -
          ((runUpdates "h" [some 5, none]).received : ℚ)) /
        ((runUpdates "h" [some 5, none]).transmitted : ℚ) * 100) ∧
    (runUpdates "h" (List.replicate 3 none)).lossPercent = FV.val 100 ∧
    ((runUpdates "h" (List.replicate 3 none)).output).rtLine = none :=
  ⟨loss_formula_and_all_fail.1 "h" [some 5, none] (by decide),
   (loss_formula_and_all_fail.2 "h" 3 (by decide)).1,
   (loss_formula_and_all_fail.2 "h" 3 (by decide)).2⟩

/-- Claim C7: the bounded loop with `count = N` issues exactly `N`
attempts carrying sequence numbers exactly `0, 1, …, N−1`, strictly
increasing, no repeats, no gaps, each attempted exactly once — and the
issued sequence is the same for every outcome oracle, so a per-attempt
failure never aborts the loop (the accumulator still records `N`
transmissions). -/
theorem mainLoop_sequence_numbers (host : String) (N : Nat)
    (o o2 : Nat → Option Nat) :
    (mainLoop host N o).2 = List.range N ∧
    (mainLoop host N o).2.length = N ∧
    List.Pairwise (fun i j => i < j) (mainLoop host N o).2 ∧
    (∀ s, s ∈ (mainLoop host N o).2 ↔ s < N) ∧
    (∀ s, s < N → (mainLoop host N o).2.count s = 1) ∧
    (mainLoop host N o).2 = (mainLoop host N o2).2 ∧
    (mainLoop host N o).1.transmitted = N := by
  refine ⟨mainLoop_snd host N o, ?_, ?_, ?_, ?_, ?_, ?_⟩
  · rw [mainLoop_snd, List.length_range]
  · rw [mainLoop_snd]
    exact List.pairwise_lt_range N
  · intro s
    rw [mainLoop_snd]
    exact List.mem_range
  · intro s hs
    rw [mainLoop_snd]
    exact List.count_eq_one_of_mem (List.nodup_range N) (List.mem_range.mpr hs)
  · rw [mainLoop_snd, mainLoop_snd]
  · rw [mainLoop_fst, run_transmitted, List.length_map, List.length_range]

/-- Witness for C7 at `count = 5`, comparing an all-failing oracle with an
all-succeeding one, and checking sequence number `3`. -/
theorem mainLoop_sequence_numbers_witness :
    (mainLoop "h" 5 (fun _ => none)).2 = List.range 5 ∧
    (3 ∈ (mainLoop "h" 5 (fun _ => none)).2 ↔ 3 < 5) ∧
    (mainLoop "h" 5 (fun _ => none)).2.count 3 = 1 ∧
    (mainLoop "h" 5 (fun _ => none)).2 = (mainLoop "h" 5 (fun i => some i)).2 ∧
    (mainLoop "h" 5 (fun _ => none)).1.transmitted = 5 :=
  have h := mainLoop_sequence_numbers "h" 5 (fun _ => none) (fun i => some i)
  ⟨h.1, h.2.2.2.1 3, h.2.2.2.2.1 3 (by decide), h.2.2.2.2.2.1, h.2.2.2.2.2.2⟩

/-- Claim C9: in every reachable state with `received > 1` the duration log
is nonempty, so `Answer::min`, `Answer::max`, `Answer::avg` and
`Answer::mdev` all return `Some`, and the four `unwrap()` calls in the
gated branch of `Answer::output` cannot panic. -/
theorem stats_defined_when_received_gt_one (host : String)
    (us : List (Option Nat)) (h : 1 < (runUpdates host us).received) :
    (runUpdates host us).min.isSome ∧
    (runUpdates host us).max.isSome ∧
    (runUpdates host us).avg.isSome ∧
    (runUpdates host us).tmdev.isSome := by
  have hinv := (run_inv_aux host us).2
  have hlen : (runUpdates host us).durations.length ≠ 0 := by omega
  have hne : (runUpdates host us).durations ≠ [] := by
    intro hcontra
    rw [hcontra] at hlen
    exact hlen rfl
  have havg : (runUpdates host us).avg.isSome := by
    simp [Answer.avg, hlen]
  refine ⟨?_, ?_, havg, ?_⟩
  · obtain ⟨m, hm⟩ := Option.isSome_iff_exists.mp (listMin_isSome_of_ne_nil _ hne)
    simp [Answer.min, hm]
  · obtain ⟨m, hm⟩ := Option.isSome_iff_exists.mp (listMax_isSome_of_ne_nil _ hne)
    simp [Answer.max, hm]
  · obtain ⟨av, hav⟩ := Option.isSome_iff_exists.mp havg
    simp [Answer.tmdev, hav]

/-- Witness for C9 at the run `[some 1000000, some 2000000]`
(`received = 2`). -/
theorem stats_defined_when_received_gt_one_witness :
    (runUpdates "h" [some 1000000, some 2000000]).min.isSome ∧
    (runUpdates "h" [some 1000000, some 2000000]).max.isSome ∧
    (runUpdates "h" [some 1000000, some 2000000]).avg.isSome ∧
    (runUpdates "h" [some 1000000, some 2000000]).tmdev.isSome :=
  stats_defined_when_received_gt_one "h" [some 1000000, some 2000000] (by decide)

/-- Claim C8 (code behaviour at the failing input): with `count = 0` the
loop `for idx in 0..opt.count` executes zero times — no attempt is issued,
the accumulator still has `transmitted = 0`, and the summary is printed
immediately; the structopt default for the option is `5`, so there is no
unbounded mode. -/
theorem mainLoop_count_zero_terminates_immediately :
    (mainLoop "example.com" 0 (fun i => some (i + 1))).2 = [] ∧
    (mainLoop "example.com" 0 (fun i => some (i + 1))).1.transmitted = 0 ∧
    (mainLoop "example.com" 0 (fun i => some (i + 1))).1 = Answer.new "example.com" ∧
    defaultCount = 5 :=
  ⟨rfl, rfl, rfl, rfl⟩
